import Mathlib

/-!
Verification of the retrieval subsystem of the Offline-AI-ChatBot repository:
document chunking (`backend/pdf_processor.py`), vectorization and similarity
search (`backend/vector_store.py`), retrieval orchestration
(`backend/rag_engine.py`) and the document-upload lifecycle
(`backend/app.py`, `backend/database.py`).

Python strings are modelled as `List Char`; Python `int` as `Int` (`Nat`
where the source only ever holds naturals); Python `float` as `ℝ`, with
`x ** 0.5` modelled by `Real.sqrt`.  Whitespace and case-folding are
modelled over the ASCII subset actually exercised by the code.
-/

namespace OfflineChat

/-- ASCII model of Python's whitespace test used by `str.split()` /
`str.strip()`. -/
def isSpace (c : Char) : Bool :=
  c = ' ' || c = '\t' || c = '\n' || c = '\r'

/-- ASCII model of Python's `str.lower()` applied to one character. -/
def pyLower (c : Char) : Char := c.toLower

/-- Python slice `text[s:e]` (step 1) on a `List Char`, with Python's
clamping of out-of-range and negative indices. -/
def pySlice (l : List Char) (s e : Int) : List Char :=
  let n : Int := l.length
  let s1 : Int := if s < 0 then max (n + s) 0 else s
  let e1 : Int := if e < 0 then max (n + e) 0 else e
  (l.take (min e1.toNat l.length)).drop (min s1.toNat l.length)

/-- Python prefix slice `l[:k]` for an arbitrary (possibly negative)
integer `k`. -/
def pyTakeInt {α : Type} (k : Int) (l : List α) : List α :=
  if 0 ≤ k then l.take k.toNat else l.take ((l.length : Int) + k).toNat

/-- Auxiliary state machine for Python's `str.split()` (split on runs of
whitespace, no empty words); `acc` holds the current word reversed. -/
def splitWSAux : List Char → List Char → List (List Char)
  | [], acc => if acc = [] then [] else [acc.reverse]
  | c :: cs, acc =>
    if isSpace c then
      if acc = [] then splitWSAux cs [] else acc.reverse :: splitWSAux cs []
    else splitWSAux cs (c :: acc)

/-- Python's `str.split()` with no separator argument. -/
def splitWS (l : List Char) : List (List Char) := splitWSAux l []

/-- Python's `<` on strings: lexicographic by character code, a strict
prefix compares smaller. -/
def strLt : List Char → List Char → Bool
  | [], [] => false
  | [], _ :: _ => true
  | _ :: _, [] => false
  | a :: as, b :: bs => if a < b then true else if b < a then false else strLt as bs

/-- Non-strict string order used to model Python's `sorted()` on strings. -/
def strLe (a b : List Char) : Prop := strLt a b = true ∨ a = b

instance : DecidableRel strLe := fun a b => by
  unfold strLe; infer_instance

/-! ## Chunker — `PDFProcessor.chunk_text` (`backend/pdf_processor.py`) -/

/-- One chunk dictionary produced by `PDFProcessor.chunk_text`. -/
structure Chunk where
  id : Nat
  text : List Char
  start_char : Int
  end_char : Int
  length : Nat
deriving DecidableEq, Repr

/-- The `while start < len(text)` loop of `chunk_text`, made total with a
fuel parameter: `none` means the given number of iterations did not reach
the loop's exit condition.  The source performs no parameter validation,
so none appears here: `cs` is `self.chunk_size`, `ov` is
`self.chunk_overlap`, exactly as stored by `PDFProcessor.__init__`. -/
def chunkLoop (cs ov : Int) (text : List Char) : Nat → Int → Nat → Option (List Chunk)
  | 0, start, _ =>
    if start < (text.length : Int) then none else some []
  | fuel + 1, start, cid =>
    if start < (text.length : Int) then
      let e := start + cs
      let ct := pySlice text start e
      if ct.any (fun c => !(isSpace c)) then
        match chunkLoop cs ov text fuel (start + (cs - ov)) (cid + 1) with
        | none => none
        | some rest =>
          some ({ id := cid, text := ct, start_char := start,
                  end_char := min e (text.length : Int), length := ct.length } :: rest)
      else chunkLoop cs ov text fuel (start + (cs - ov)) cid
    else some []

/-- `PDFProcessor.chunk_text`: runs the loop with enough fuel for every
terminating configuration (`text.length + 1` iterations suffice whenever
`chunk_size - chunk_overlap ≥ 1`). -/
def chunk_text (cs ov : Int) (text : List Char) : Option (List Chunk) :=
  chunkLoop cs ov text (text.length + 1) 0 0

/-- Projection of a chunk to the offsets the spec talks about. -/
def chunkSummary (c : Chunk) : Nat × Int × Int := (c.id, c.start_char, c.end_char)

/-! ## Vectorizer — `SimpleVectorStore._simple_vectorize`
(`backend/vector_store.py`) -/

/-- `sum(v * v for v in vector) ** 0.5`. -/
noncomputable def pyNorm (v : List ℝ) : ℝ := Real.sqrt ((v.map fun x => x * x).sum)

/-- `SimpleVectorStore._simple_vectorize`: lower-case whitespace
tokenization, term-frequency counts over `sorted(set(words))[:1000]`
(note the truncation to the first 1000 sorted distinct tokens), then
L2 normalization guarded by `norm > 0`. -/
noncomputable def simple_vectorize (text : List Char) : List ℝ :=
  let words := splitWS (text.map pyLower)
  let vocab := (List.insertionSort strLe words.dedup).take 1000
  let vector : List ℝ := vocab.map fun w => ((words.count w : ℕ) : ℝ)
  let norm := pyNorm vector
  if 0 < norm then vector.map fun v => v / norm else vector

/-- Modelled from the spec's reference algorithm for `vectorize` (§4.2):
identical to `simple_vectorize` except that the vocabulary is the sorted
set of ALL distinct tokens observed in the text, with no truncation. -/
noncomputable def vectorize_ref (text : List Char) : List ℝ :=
  let words := splitWS (text.map pyLower)
  let vocab := List.insertionSort strLe words.dedup
  let vector : List ℝ := vocab.map fun w => ((words.count w : ℕ) : ℝ)
  let norm := pyNorm vector
  if 0 < norm then vector.map fun v => v / norm else vector

/-- `SimpleVectorStore._cosine_similarity`: pad both vectors with zeros to
the longer length, then dot product over the product of norms, `0.0` when
either norm is zero. -/
noncomputable def cosine_similarity (vec1 vec2 : List ℝ) : ℝ :=
  let maxLen := max vec1.length vec2.length
  let v1 := vec1 ++ List.replicate (maxLen - vec1.length) 0
  let v2 := vec2 ++ List.replicate (maxLen - vec2.length) 0
  let dot := ((v1.zip v2).map fun p => p.1 * p.2).sum
  let norm1 := Real.sqrt ((v1.map fun a => a * a).sum)
  let norm2 := Real.sqrt ((v2.map fun b => b * b).sum)
  if norm1 = 0 ∨ norm2 = 0 then 0 else dot / (norm1 * norm2)

/-! ## Vector store — `SimpleVectorStore` (`backend/vector_store.py`) -/

/-- One entry of `self.metadata`. -/
structure Meta where
  doc_id : Int
  chunk_id : Nat
  filename : List Char
  start_char : Int
  end_char : Int
deriving DecidableEq, Repr

/-- One result dictionary returned by `SimpleVectorStore.search`. -/
structure SearchResult where
  text : List Char
  metadata : Meta
  distance : ℝ

/-- The three parallel mutable lists of a `SimpleVectorStore` instance. -/
structure Store where
  documents : List (List Char)
  vectors : List (List ℝ)
  metadata : List Meta

/-- A freshly constructed store with no snapshot on disk. -/
def emptyStore : Store := ⟨[], [], []⟩

def defaultMeta : Meta := ⟨0, 0, [], 0, 0⟩

/-- The `if doc_id is not None and meta['doc_id'] != doc_id: continue`
filter of `SimpleVectorStore.search`. -/
def matchesFilter (doc_id : Option Int) (m : Meta) : Bool :=
  match doc_id with
  | some d => m.doc_id = d
  | none => true

/-- The candidate-scoring and sorting stage of `SimpleVectorStore.search`:
`(i, similarity)` pairs for every entry passing the `doc_id` filter, with
`i` the position in `enumerate(zip(self.vectors, self.metadata))`, sorted
by `similarities.sort(key=lambda x: x[1], reverse=True)` — a stable sort,
modelled by insertion sort with the non-strict descending comparison. -/
noncomputable def searchRanked (st : Store) (query : List Char) (doc_id : Option Int) :
    List (Nat × ℝ) :=
  let qv := simple_vectorize query
  let sims := ((st.vectors.zip st.metadata).enum.filter fun p =>
      matchesFilter doc_id p.2.2).map fun p => (p.1, cosine_similarity qv p.2.1)
  List.insertionSort (fun a b => b.2 ≤ a.2) sims

/-- `SimpleVectorStore.search`: empty-store early return, ranked
candidates, Python slice `similarities[:top_k]`, then the result
dictionaries with `distance = 1.0 - score`. -/
noncomputable def search (st : Store) (query : List Char) (top_k : Int)
    (doc_id : Option Int) : List SearchResult :=
  if st.documents = [] then []
  else
    (pyTakeInt top_k (searchRanked st query doc_id)).map fun p =>
      ⟨st.documents.getD p.1 [], st.metadata.getD p.1 defaultMeta, 1 - p.2⟩

def unknownName : List Char := "unknown".toList

/-- A chunk dictionary as received by `SimpleVectorStore.add_document`:
each key the code subscripts may be absent (`none`), in which case the
subscript raises `KeyError`. -/
structure PyChunkDict where
  id : Option Nat
  text : Option (List Char)
  start_char : Option Int
  end_char : Option Int

/-- The `for chunk in chunks` loop of `SimpleVectorStore.add_document`,
with the in-place appends sequenced exactly as the source executes them:
`chunk['text']` is read first (vectorization), then `documents` and
`vectors` are appended, then the metadata dictionary literal reads
`chunk['id']`, `chunk['start_char']`, `chunk['end_char']` before
`metadata` is appended.  The `Bool` is `false` when a `KeyError` escapes
(the source re-raises after printing), and the returned store is the
mutated in-place state at that moment — no rollback exists. -/
noncomputable def add_document_loop (doc_id : Int) (fname : List Char) :
    Store → List PyChunkDict → Store × Bool
  | st, [] => (st, true)
  | st, c :: cs =>
    match c.text with
    | none => (st, false)
    | some t =>
      let st1 : Store := { st with documents := st.documents ++ [t],
                                   vectors := st.vectors ++ [simple_vectorize t] }
      match c.id, c.start_char, c.end_char with
      | some cid, some s, some e =>
        add_document_loop doc_id fname
          { st1 with metadata := st1.metadata ++ [⟨doc_id, cid, fname, s, e⟩] } cs
      | _, _, _ => (st1, false)

/-- `SimpleVectorStore.add_document`: the loop above with the filename
drawn from `metadata.get('filename', 'unknown')`; `_save` (a disk write)
does not change the in-memory state. -/
noncomputable def add_document (st : Store) (doc_id : Int)
    (chunks : List PyChunkDict) (fname : Option (List Char)) : Store × Bool :=
  add_document_loop doc_id (fname.getD unknownName) st chunks

/-- The pickled dictionary written by `SimpleVectorStore._save`: three
parallel ordered sequences. -/
structure SnapshotData where
  documents : List (List Char)
  vectors : List (List ℝ)
  metadata : List Meta

/-- `SimpleVectorStore._save` (the value pickled to disk). -/
def saveStore (st : Store) : SnapshotData :=
  ⟨st.documents, st.vectors, st.metadata⟩

/-- `SimpleVectorStore._load` run by `__init__` on a fresh instance when a
snapshot exists: `data.get('documents', [])` and friends, with all three
keys present in any dictionary `_save` wrote. -/
def loadStore (d : SnapshotData) : Store :=
  ⟨d.documents, d.vectors, d.metadata⟩

/-! ## RAG engine — `RAGEngine` (`backend/rag_engine.py`) -/

/-- `RAGEngine.retrieve_context`: a single unfiltered search. -/
noncomputable def retrieve_context (st : Store) (query : List Char) (top_k : Int) :
    List SearchResult :=
  search st query top_k none

/-- `RAGEngine.retrieve_context_from_docs`: one filtered search per
selected document id, results concatenated in selection order, then
`all_results.sort(key=lambda x: x.get('distance', 1.0))` (stable ascending
by distance; every result dictionary carries `'distance'`) and the Python
slice `all_results[:top_k]`. -/
noncomputable def retrieve_context_from_docs (st : Store) (query : List Char)
    (doc_ids : List Int) (top_k : Int) : List SearchResult :=
  let all_results := doc_ids.flatMap fun d => search st query top_k (some d)
  pyTakeInt top_k
    (List.insertionSort (fun a b : SearchResult => a.distance ≤ b.distance) all_results)

/-- Modelled from the spec's words for multi-document retrieval (§4.4
step 2 and claim C6): run `search(query, top_k, doc_id)` independently per
selected document, concatenate all candidate results, sort the combined
pool by distance ascending, truncate to the global `top_k`. -/
noncomputable def referenceMultiDocRetrieve (st : Store) (query : List Char)
    (doc_ids : List Int) (top_k : Int) : List SearchResult :=
  let pool := (doc_ids.map fun d => search st query top_k (some d)).flatten
  pyTakeInt top_k
    (List.insertionSort (fun a b : SearchResult => a.distance ≤ b.distance) pool)

/-- Outcome of the `requests.post` call in `RAGEngine.generate_response`:
either an exception (connection failure, timeout, ... — caught by the
`except` clause with message `str(e)`), or an HTTP reply with a status
code and the optional `'response'` field of its JSON body. -/
inductive PostOutcome where
  | exc (msg : List Char)
  | reply (status_code : Nat) (responseField : Option (List Char))

def excMsgPrefixStr : List Char := "Error generating response: ".toList

def statusMsgPrefixStr : List Char := "Error: Ollama returned status code ".toList

def fallbackMsgStr : List Char := "Sorry, I could not generate a response.".toList

/-- `RAGEngine.generate_response` as a function of the backend call's
outcome: a plain string in every case, never a propagated exception. -/
def generate_response (outcome : PostOutcome) : List Char :=
  match outcome with
  | .exc m => excMsgPrefixStr ++ m
  | .reply code j =>
    if code = 200 then
      match j with
      | some s => s
      | none => fallbackMsgStr
    else statusMsgPrefixStr ++ Nat.toDigits 10 code

/-! ## Document lifecycle — `upload_document` (`backend/app.py`) and
`Database` (`backend/database.py`) -/

def processingStatus : List Char := "processing".toList

def readyStatus : List Char := "ready".toList

def errorStatus : List Char := "error".toList

/-- `Database.add_document`: `INSERT ... VALUES (..., 'processing')`,
modelled on an association list document id ↦ status. -/
def db_add_document (db : List (Int × List Char)) (doc_id : Int) :
    List (Int × List Char) :=
  db ++ [(doc_id, processingStatus)]

/-- `Database.update_document_status`: `UPDATE documents SET status = ?
WHERE id = ?`. -/
def update_document_status (db : List (Int × List Char)) (doc_id : Int)
    (status : List Char) : List (Int × List Char) :=
  db.map fun r => if r.1 = doc_id then (r.1, status) else r

def extractionErrMsg : List Char := "extraction failed".toList

def indexingErrMsg : List Char := "indexing failed".toList

/-- HTTP-level result of the upload route. -/
inductive UploadResult where
  | httpError (message : List Char)
  | success (document_id : Int)
deriving DecidableEq

/-- Document-lifecycle skeleton of `upload_document` (`backend/app.py`):
`process_pdf`, then `db.add_document` (status `'processing'`), then
`vector_store.add_document`, then `update_document_status(doc_id,
'ready')`.  `extraction_ok` abstracts whether `process_pdf` raises and
`indexing_ok` whether `vector_store.add_document` raises; either exception
lands in the route's `except`, which returns a 500 response and touches no
document status — no code path in the repository ever writes status
`'error'`. -/
def upload_document (extraction_ok indexing_ok : Bool)
    (db : List (Int × List Char)) (newId : Int) :
    List (Int × List Char) × UploadResult :=
  if extraction_ok = false then (db, .httpError extractionErrMsg)
  else
    let db1 := db_add_document db newId
    if indexing_ok = false then (db1, .httpError indexingErrMsg)
    else (update_document_status db1 newId readyStatus, .success newId)

/-- A complete chunk dictionary with id 0. -/
def chunkDict0 : PyChunkDict := ⟨some 0, some ('a' :: []), some 0, some 1⟩

/-- A chunk dictionary with id 1 whose `'text'` key is missing, so
`chunk['text']` raises `KeyError` when `add_document` reaches it. -/
def chunkDictBad1 : PyChunkDict := ⟨some 1, none, some 1, some 2⟩

/-- The metadata entry `add_document` builds for one complete chunk
dictionary. -/
def expectedMeta (doc_id : Int) (fname : List Char) (c : PyChunkDict) : Meta :=
  ⟨doc_id, c.id.getD 0, fname, (c.start_char).getD 0, (c.end_char).getD 0⟩

/-- The result dictionary `search` builds from one ranked `(i, score)`
pair. -/
def searchHit (st : Store) (p : Nat × ℝ) : SearchResult :=
  ⟨st.documents.getD p.1 [], st.metadata.getD p.1 defaultMeta, 1 - p.2⟩

/-- One-entry store used by concrete witnesses. -/
def oneEntryStore : Store :=
  ⟨('a' :: []) :: [], ((1 : ℝ) :: []) :: [], (⟨1, 0, [], 0, 1⟩ : Meta) :: []⟩

/-- Ranking order realised by `similarities.sort(key=lambda x: x[1],
reverse=True)` on the `(insertion index, similarity)` pairs: strictly
greater similarity first, ties broken by smaller insertion index (the sort
is stable and candidate indices strictly increase). -/
def simLex (a b : Nat × ℝ) : Prop := b.2 < a.2 ∨ (a.2 = b.2 ∧ a.1 < b.1)

/-- 32 distinct case-stable non-whitespace characters. -/
def chars32 : List Char := "abcdefghijklmnopqrstuvwxyz012345".toList

/-- The 1024 distinct two-character tokens over `chars32`. -/
def tokens1024 : List (List Char) :=
  chars32.flatMap fun a => chars32.map fun b => a :: b :: []

/-- A text containing 1024 distinct tokens: every token of `tokens1024`
followed by a space. -/
def bigText1024 : List Char := tokens1024.flatMap fun w => w ++ (' ' :: [])

/-- A store holding three chunks of document 1 whose vectors match the
query `"a"` exactly and two chunks of document 2 with empty vectors
(similarity 0): the starvation scenario of §8. -/
def starveStore : Store :=
  ⟨('a' :: []) :: ('a' :: []) :: ('a' :: []) :: [] :: [] :: [],
   ((1 : ℝ) :: []) :: ((1 : ℝ) :: []) :: ((1 : ℝ) :: []) ::
     ([] : List ℝ) :: ([] : List ℝ) :: [],
   (⟨1, 0, [], 0, 1⟩ : Meta) :: (⟨1, 1, [], 0, 1⟩ : Meta) ::
     (⟨1, 2, [], 0, 1⟩ : Meta) :: (⟨2, 0, [], 0, 0⟩ : Meta) ::
     (⟨2, 1, [], 0, 0⟩ : Meta) :: []⟩

/-! ## Theorems -/

set_option maxRecDepth 10000

/-- Positions in `enumerate(...)` strictly increase. -/
theorem pairwise_fst_lt_enumFrom {α : Type} (n : Nat) (l : List α) :
    List.Pairwise (fun a b => a.1 < b.1) (List.enumFrom n l) := by
  induction l generalizing n with
  | nil => simp
  | cons x xs ih =>
    refine List.Pairwise.cons ?_ (ih (n + 1))
    rintro ⟨i, y⟩ hb
    have h := (List.mem_enumFrom hb).1
    simpa using by omega

/-- Inserting a candidate with a smaller insertion index than everything
in an already `simLex`-ordered list keeps the list `simLex`-ordered. -/
theorem pairwise_simLex_orderedInsert (b : Nat × ℝ) (L : List (Nat × ℝ))
    (hL : L.Pairwise simLex) (hb : ∀ x ∈ L, b.1 < x.1) :
    (List.orderedInsert (fun a c => c.2 ≤ a.2) b L).Pairwise simLex := by
  induction L with
  | nil => simp [List.orderedInsert, simLex]
  | cons y ys ih =>
    rw [List.orderedInsert]
    by_cases h : y.2 ≤ b.2
    · rw [if_pos h]
      refine List.Pairwise.cons ?_ hL
      intro z hz
      rcases List.mem_cons.1 hz with rfl | hz
      · rcases lt_or_eq_of_le h with h' | h'
        · exact Or.inl h'
        · exact Or.inr ⟨h'.symm, hb z (List.mem_cons_self _ _)⟩
      · have hyz := List.rel_of_pairwise_cons hL hz
        have hz2 : z.2 ≤ y.2 := by
          rcases hyz with h1 | ⟨h1, _⟩
          · exact le_of_lt h1
          · exact le_of_eq h1.symm
        rcases lt_or_eq_of_le (le_trans hz2 h) with h' | h'
        · exact Or.inl h'
        · exact Or.inr ⟨h'.symm, hb z (List.mem_cons_of_mem _ hz)⟩
    · rw [if_neg h]
      push_neg at h
      refine List.Pairwise.cons ?_ (ih (List.Pairwise.of_cons hL)
        (fun x hx => hb x (List.mem_cons_of_mem _ hx)))
      intro z hz
      rcases (List.mem_orderedInsert _).1 hz with rfl | hz
      · exact Or.inl h
      · exact List.rel_of_pairwise_cons hL hz

/-- A stable descending sort by similarity of candidates with strictly
increasing insertion indices is `simLex`-ordered: ties are broken by
original insertion order. -/
theorem pairwise_simLex_insertionSort (l : List (Nat × ℝ))
    (hl : l.Pairwise fun a b => a.1 < b.1) :
    (List.insertionSort (fun a b => b.2 ≤ a.2) l).Pairwise simLex := by
  induction l with
  | nil => simp
  | cons b l ih =>
    rw [List.insertionSort]
    refine pairwise_simLex_orderedInsert b _ (ih (List.Pairwise.of_cons hl)) ?_
    intro x hx
    exact List.rel_of_pairwise_cons hl ((List.mem_insertionSort _).1 hx)

/-- The ranked candidate list of `SimpleVectorStore.search` is sorted by
descending similarity with ties in insertion order. -/
theorem pairwise_simLex_searchRanked (st : Store) (q : List Char) (d : Option Int) :
    (searchRanked st q d).Pairwise simLex := by
  rw [searchRanked]
  apply pairwise_simLex_insertionSort
  rw [List.pairwise_map]
  exact List.Pairwise.filter _ (pairwise_fst_lt_enumFrom 0 _)

/-- C7: for every index state, query, positive `top_k` and optional
document filter, `search` returns at most `top_k` results, sorted by
non-decreasing distance (non-increasing similarity); the ranked slice it
is built from additionally breaks distance ties by original insertion
order (`simLex`); an empty index, or a filter no entry matches, yields
`[]` rather than an error. -/
theorem search_sorted_bounded (st : Store) (q : List Char) (k : Int)
    (d : Option Int) (hk : 0 < k) :
    ((search st q k d).length : Int) ≤ k ∧
    (search st q k d).Pairwise (fun a b => a.distance ≤ b.distance) ∧
    (pyTakeInt k (searchRanked st q d)).Pairwise simLex ∧
    (st.documents = [] → search st q k d = []) ∧
    (searchRanked st q d = [] → search st q k d = []) := by
  have htake : (pyTakeInt k (searchRanked st q d)).Pairwise simLex := by
    rw [pyTakeInt, if_pos (le_of_lt hk)]
    exact List.Pairwise.sublist (List.take_sublist _ _) (pairwise_simLex_searchRanked st q d)
  refine ⟨?_, ?_, htake, fun h => ?_, fun h => ?_⟩
  · by_cases hd : st.documents = []
    · rw [search, if_pos hd]
      simpa using by omega
    · rw [search, if_neg hd, List.length_map, pyTakeInt, if_pos (le_of_lt hk)]
      have := List.length_take k.toNat (searchRanked st q d)
      omega
  · by_cases hd : st.documents = []
    · rw [search, if_pos hd]
      simp
    · rw [search, if_neg hd, List.pairwise_map]
      refine htake.imp ?_
      intro a b hab
      have h2 : b.2 ≤ a.2 := by
        rcases hab with h1 | ⟨h1, _⟩
        · exact le_of_lt h1
        · exact le_of_eq h1.symm
      show (1 : ℝ) - a.2 ≤ 1 - b.2
      linarith
  · rw [search, if_pos h]
  · rw [search]
    by_cases hd : st.documents = []
    · rw [if_pos hd]
    · rw [if_neg hd, h]
      simp [pyTakeInt]

/-- Witness for C7 at a concrete store, query and `top_k`. -/
theorem search_sorted_bounded_witness :
    (0 : Int) < 1 ∧
    (((search emptyStore ('a' :: []) 1 none).length : Int) ≤ 1 ∧
      (search emptyStore ('a' :: []) 1 none).Pairwise
        (fun a b => a.distance ≤ b.distance) ∧
      (pyTakeInt 1 (searchRanked emptyStore ('a' :: []) none)).Pairwise simLex ∧
      (emptyStore.documents = [] → search emptyStore ('a' :: []) 1 none = []) ∧
      (searchRanked emptyStore ('a' :: []) none = [] →
        search emptyStore ('a' :: []) 1 none = [])) :=
  ⟨by decide, search_sorted_bounded emptyStore ('a' :: []) 1 none (by decide)⟩

/-- Once `start` has reached the text length the chunking loop exits at
once, whatever fuel is left. -/
theorem chunkLoop_stop (cs ov : Int) (text : List Char) (fuel : Nat) (start : Int)
    (cid : Nat) (h : ¬ start < (text.length : Int)) :
    chunkLoop cs ov text fuel start cid = some [] := by
  cases fuel with
  | zero => rw [chunkLoop, if_neg h]
  | succ n => rw [chunkLoop, if_neg h]

/-- A window starting inside the text is non-empty. -/
theorem pySlice_ne_nil (l : List Char) (s e : Int) (h0 : 0 ≤ s)
    (h1 : s < (l.length : Int)) (h2 : s < e) : pySlice l s e ≠ [] := by
  apply List.ne_nil_of_length_pos
  simp only [pySlice, List.length_drop, List.length_take]
  have hs : ¬ s < 0 := by omega
  have he : ¬ e < 0 := by omega
  rw [if_neg hs, if_neg he]
  omega

/-- Every character of a slice is a character of the sliced text. -/
theorem mem_of_mem_pySlice {l : List Char} {s e : Int} {c : Char}
    (h : c ∈ pySlice l s e) : c ∈ l := by
  simp only [pySlice] at h
  exact List.mem_of_mem_take (List.mem_of_mem_drop h)

/-- On whitespace-free text every non-empty window passes the
`chunk_text.strip()` check. -/
theorem window_strip_check {text : List Char} {s e : Int}
    (hns : ∀ c ∈ text, isSpace c = false) (hne : pySlice text s e ≠ []) :
    (pySlice text s e).any (fun c => !(isSpace c)) = true := by
  obtain ⟨c, hc⟩ := List.exists_mem_of_ne_nil _ hne
  rw [List.any_eq_true]
  exact ⟨c, hc, by rw [hns c (mem_of_mem_pySlice hc)]; rfl⟩

/-- Loop invariant of `chunk_text` for valid parameters: from any
in-range `start`, with enough fuel, provided every window the loop will
visit from `start` on (the windows `[start + j·step, start + j·step +
chunk_size)` for `j = 0, 1, ...` that begin inside the text) contains a
non-whitespace character, the loop emits a chunk list whose first chunk
starts at `start`, whose consecutive starts advance by exactly
`chunk_size − overlap`, and whose last chunk ends at the text length. -/
theorem chunkLoop_valid (cs ov : Int) (text : List Char) (hov : 0 ≤ ov)
    (hlt : ov < cs) :
    ∀ (fuel : Nat) (start : Int) (cid : Nat), 0 ≤ start →
      start < (text.length : Int) → (text.length : Int) - start ≤ (fuel : Int) →
      (∀ j : Nat, start + (j : Int) * (cs - ov) < (text.length : Int) →
        ∃ c ∈ pySlice text (start + (j : Int) * (cs - ov))
          (start + (j : Int) * (cs - ov) + cs), isSpace c = false) →
      ∃ chunks, chunkLoop cs ov text fuel start cid = some chunks ∧
        ∃ c0 cl, chunks.head? = some c0 ∧ c0.start_char = start ∧
          chunks.getLast? = some cl ∧ cl.end_char = (text.length : Int) ∧
          chunks.Chain' (fun a b => b.start_char = a.start_char + (cs - ov)) := by
  intro fuel
  induction fuel with
  | zero =>
    intro start cid h0 h1 h2 _
    exfalso
    omega
  | succ n ih =>
    intro start cid h0 h1 h2 hwin
    have hw0 := hwin 0
    simp only [Nat.cast_zero, zero_mul, add_zero] at hw0
    have hany : (pySlice text start (start + cs)).any (fun c => !(isSpace c)) = true := by
      rw [List.any_eq_true]
      obtain ⟨c, hc, hcs⟩ := hw0 h1
      exact ⟨c, hc, by rw [hcs]; rfl⟩
    have hwin' : ∀ j : Nat,
        (start + (cs - ov)) + (j : Int) * (cs - ov) < (text.length : Int) →
        ∃ c ∈ pySlice text ((start + (cs - ov)) + (j : Int) * (cs - ov))
          ((start + (cs - ov)) + (j : Int) * (cs - ov) + cs), isSpace c = false := by
      intro j
      have heq : (start + (cs - ov)) + (j : Int) * (cs - ov) =
          start + ((j + 1 : Nat) : Int) * (cs - ov) := by
        push_cast
        ring
      rw [heq]
      exact hwin (j + 1)
    simp only [chunkLoop]
    rw [if_pos h1, if_pos hany]
    rcases le_or_lt (text.length : Int) (start + (cs - ov)) with hstop | hcont
    · rw [chunkLoop_stop cs ov text n (start + (cs - ov)) (cid + 1) (by omega)]
      refine ⟨(⟨cid, pySlice text start (start + cs), start,
          min (start + cs) (text.length : Int),
          (pySlice text start (start + cs)).length⟩ : Chunk) :: [], rfl,
        _, _, rfl, rfl, rfl, ?_, ?_⟩
      · show min (start + cs) (text.length : Int) = (text.length : Int)
        omega
      · exact List.chain'_singleton _
    · obtain ⟨rest, hrest, c0, cl, hh, hs0, hlast, hend, hchain⟩ :=
        ih (start + (cs - ov)) (cid + 1) (by omega) hcont (by omega) hwin'
      rw [hrest]
      cases rest with
      | nil => simp at hh
      | cons r rs =>
        have hr : r = c0 := by simpa using hh
        refine ⟨(⟨cid, pySlice text start (start + cs), start,
            min (start + cs) (text.length : Int),
            (pySlice text start (start + cs)).length⟩ : Chunk) :: r :: rs,
          rfl, _, cl, rfl, rfl, ?_, hend, ?_⟩
        · rw [List.getLast?_cons_cons]
          exact hlast
        · rw [List.chain'_cons]
          exact ⟨by rw [hr, hs0], hchain⟩

/-- C2 (amended): for valid parameters `0 ≤ overlap < chunk_size` on
non-empty text in which no window is whitespace-only — the windows
`chunk_text` examines are `text[k·(chunk_size−overlap) :
k·(chunk_size−overlap) + chunk_size]` for `k = 0, 1, ...`, and the
hypothesis asks each one that begins inside the text to contain a
non-whitespace character — the emitted chunks' start offsets strictly
increase by exactly `chunk_size − overlap` starting from `0` and the last
chunk's `end_char` equals `len(text)`; the spec's concrete case (1000
characters, `chunk_size=512`, `overlap=50`) emits exactly the three chunks
`(0, 0, 512), (1, 462, 974), (2, 924, 1000)`.  (On texts with
whitespace-only windows the skipping in `chunk_text` breaks both the
exact-step property and the final `end_char` property — see the
counterexample.) -/
theorem chunk_text_valid_params_shape :
    (∀ (cs ov : Int) (text : List Char), 0 ≤ ov → ov < cs → text ≠ [] →
      (∀ k : Nat, (k : Int) * (cs - ov) < (text.length : Int) →
        ∃ c ∈ pySlice text ((k : Int) * (cs - ov)) ((k : Int) * (cs - ov) + cs),
          isSpace c = false) →
      ∃ chunks, chunk_text cs ov text = some chunks ∧
        ∃ c0 cl, chunks.head? = some c0 ∧ c0.start_char = 0 ∧
          chunks.getLast? = some cl ∧ cl.end_char = (text.length : Int) ∧
          chunks.Chain' (fun a b => b.start_char = a.start_char + (cs - ov))) ∧
    (chunk_text 512 50 (List.replicate 1000 'a')).map (List.map chunkSummary) =
      some ((0, 0, 512) :: (1, 462, 974) :: (2, 924, 1000) :: []) := by
  constructor
  · intro cs ov text hov hlt hne hwin
    have hlen : 0 < text.length := List.length_pos.2 hne
    have hwin0 : ∀ j : Nat, (0 : Int) + (j : Int) * (cs - ov) < (text.length : Int) →
        ∃ c ∈ pySlice text ((0 : Int) + (j : Int) * (cs - ov))
          ((0 : Int) + (j : Int) * (cs - ov) + cs), isSpace c = false := by
      intro j
      simp only [zero_add]
      exact hwin j
    exact chunkLoop_valid cs ov text hov hlt (text.length + 1) 0 0 le_rfl
      (by omega) (by omega) hwin0
  · decide

/-- Witness for C2's amended theorem on `"a b"` with `chunk_size=3`,
`overlap=0`: the text contains whitespace, but its single window is not
whitespace-only, so the amended conclusion applies. -/
theorem chunk_text_valid_params_shape_witness :
    (0 : Int) ≤ 0 ∧ (0 : Int) < 3 ∧ ('a' :: ' ' :: 'b' :: []) ≠ ([] : List Char) ∧
    (∀ k : Nat, (k : Int) * (3 - 0) < ((('a' :: ' ' :: 'b' :: []) : List Char).length : Int) →
      ∃ c ∈ pySlice ('a' :: ' ' :: 'b' :: []) ((k : Int) * (3 - 0))
        ((k : Int) * (3 - 0) + 3), isSpace c = false) ∧
    (∃ chunks, chunk_text 3 0 ('a' :: ' ' :: 'b' :: []) = some chunks ∧
      ∃ c0 cl, chunks.head? = some c0 ∧ c0.start_char = 0 ∧
        chunks.getLast? = some cl ∧
        cl.end_char = ((('a' :: ' ' :: 'b' :: []) : List Char).length : Int) ∧
        chunks.Chain' (fun a b => b.start_char = a.start_char + (3 - 0))) := by
  have hwin : ∀ k : Nat,
      (k : Int) * (3 - 0) < ((('a' :: ' ' :: 'b' :: []) : List Char).length : Int) →
      ∃ c ∈ pySlice ('a' :: ' ' :: 'b' :: []) ((k : Int) * (3 - 0))
        ((k : Int) * (3 - 0) + 3), isSpace c = false := by
    intro k hk
    have hk0 : k = 0 := by
      simp only [List.length_cons, List.length_nil] at hk
      omega
    subst hk0
    decide
  exact ⟨by decide, by decide, by decide, hwin,
    chunk_text_valid_params_shape.1 3 0 ('a' :: ' ' :: 'b' :: []) (by decide)
      (by decide) (by decide) hwin⟩

/-- C2 (counterexample): with the valid parameters `chunk_size=2`,
`overlap=0` on the 5-character text `'a'` followed by four spaces, the
code emits a single chunk `[0, 2)`: its `end_char` is `2 ≠ 5 = len(text)`,
so the claim's "the last emitted chunk's end_char equals len(T)" fails
(the trailing whitespace-only windows are skipped). -/
theorem chunk_text_whitespace_counterexample :
    (0 : Int) ≤ 0 ∧ (0 : Int) < 2 ∧
    ('a' :: List.replicate 4 ' ').length = 5 ∧
    (chunk_text 2 0 ('a' :: List.replicate 4 ' ')).map (List.map chunkSummary) =
      some ((0, 0, 2) :: []) := by decide

/-- `str.split()` consumes a whitespace-free word wholesale into the
accumulator. -/
theorem splitWSAux_word (w : List Char) (hns : ∀ c ∈ w, isSpace c = false) :
    ∀ (rest acc : List Char),
      splitWSAux (w ++ rest) acc = splitWSAux rest (w.reverse ++ acc) := by
  induction w with
  | nil => intro rest acc; simp
  | cons c w ih =>
    intro rest acc
    have hc : isSpace c = false := hns c (List.mem_cons_self _ _)
    show splitWSAux (c :: (w ++ rest)) acc = _
    rw [splitWSAux, if_neg (by simp [hc])]
    rw [ih (fun x hx => hns x (List.mem_cons_of_mem _ hx)) rest (c :: acc)]
    simp

/-- `str.split()` of space-joined non-empty whitespace-free words gives
back exactly those words. -/
theorem splitWS_join_words : ∀ ws : List (List Char),
    (∀ w ∈ ws, w ≠ [] ∧ ∀ c ∈ w, isSpace c = false) →
    splitWS (ws.flatMap fun w => w ++ (' ' :: [])) = ws := by
  intro ws
  induction ws with
  | nil => intro _; rfl
  | cons w ws ih =>
    intro h
    obtain ⟨hne, hns⟩ := h w (List.mem_cons_self _ _)
    show splitWSAux ((w ++ (' ' :: [])) ++ ws.flatMap _) [] = w :: ws
    rw [List.append_assoc, splitWSAux_word w hns]
    show splitWSAux (' ' :: _) (w.reverse ++ []) = w :: ws
    rw [splitWSAux, if_pos (by rfl)]
    rw [if_neg (by simp [hne])]
    rw [List.append_nil, List.reverse_reverse]
    exact congrArg (w :: ·) (ih fun x hx => h x (List.mem_cons_of_mem _ hx))

theorem chars32_nodup : chars32.Nodup := by decide

theorem chars32_lower_fixed : ∀ c ∈ chars32, pyLower c = c := by decide

theorem chars32_not_space : ∀ c ∈ chars32, isSpace c = false := by decide

/-- Shape of the 1024 test tokens. -/
theorem tokens1024_shape : ∀ w ∈ tokens1024,
    ∃ a b, a ∈ chars32 ∧ b ∈ chars32 ∧ w = a :: b :: [] := by
  intro w hw
  rw [tokens1024, List.mem_flatMap] at hw
  obtain ⟨a, ha, hw⟩ := hw
  rw [List.mem_map] at hw
  obtain ⟨b, hb, rfl⟩ := hw
  exact ⟨a, b, ha, hb, rfl⟩

/-- The 1024 test tokens are pairwise distinct. -/
theorem tokens1024_nodup : tokens1024.Nodup := by
  rw [tokens1024, List.nodup_flatMap]
  constructor
  · intro a _
    refine List.Nodup.map ?_ chars32_nodup
    intro x y hxy
    simpa using hxy
  · refine chars32_nodup.imp ?_
    intro a b hab x hx hy
    rw [List.mem_map] at hx hy
    obtain ⟨c1, _, h1⟩ := hx
    obtain ⟨c2, _, h2⟩ := hy
    rw [← h2] at h1
    exact hab (by simpa using (List.cons.inj h1).1)

theorem tokens1024_length : tokens1024.length = 1024 := by decide

/-- Lower-casing leaves the test text unchanged. -/
theorem bigText1024_lower : bigText1024.map pyLower = bigText1024 := by
  have h : ∀ c ∈ bigText1024, pyLower c = c := by
    intro c hc
    rw [bigText1024, List.mem_flatMap] at hc
    obtain ⟨w, hw, hcw⟩ := hc
    rcases List.mem_append.1 hcw with h1 | h1
    · obtain ⟨a, b, ha, hb, rfl⟩ := tokens1024_shape w hw
      rcases List.mem_cons.1 h1 with rfl | h1
      · exact chars32_lower_fixed _ ha
      · rcases List.mem_cons.1 h1 with rfl | h1
        · exact chars32_lower_fixed _ hb
        · exact absurd h1 (List.not_mem_nil _)
    · rw [List.mem_singleton.1 h1]
      rfl
  rw [List.map_congr_left h, List.map_id']

/-- Tokenizing the test text yields exactly the 1024 distinct tokens. -/
theorem splitWS_bigText1024 : splitWS (bigText1024.map pyLower) = tokens1024 := by
  rw [bigText1024_lower, bigText1024]
  apply splitWS_join_words
  intro w hw
  obtain ⟨a, b, ha, hb, rfl⟩ := tokens1024_shape w hw
  refine ⟨by simp, ?_⟩
  intro c hc
  rcases List.mem_cons.1 hc with rfl | hc
  · exact chars32_not_space _ ha
  · rcases List.mem_cons.1 hc with rfl | hc
    · exact chars32_not_space _ hb
    · exact absurd hc (List.not_mem_nil _)

/-- The dimension of a vector produced by `_simple_vectorize` is the
number of distinct tokens capped at 1000. -/
theorem simple_vectorize_length (t : List Char) :
    (simple_vectorize t).length =
      min 1000 (splitWS (t.map pyLower)).dedup.length := by
  simp only [simple_vectorize]
  rw [apply_ite List.length]
  simp [List.length_take, List.length_insertionSort]

/-- The dimension of a vector produced by the spec's reference algorithm
is the full number of distinct tokens. -/
theorem vectorize_ref_length (t : List Char) :
    (vectorize_ref t).length = (splitWS (t.map pyLower)).dedup.length := by
  simp only [vectorize_ref]
  rw [apply_ite List.length]
  simp [List.length_insertionSort]

/-- C5 (counterexample): on a text with 1024 distinct tokens the code's
vector has only 1000 coordinates — `sorted(set(words))[:1000]` drops the
24 largest tokens — while the spec's reference vector has 1024, so
`_simple_vectorize` differs from the reference definition. -/
theorem vectorize_truncation_counterexample :
    simple_vectorize bigText1024 ≠ vectorize_ref bigText1024 := by
  intro h
  have h1 : (simple_vectorize bigText1024).length = 1000 := by
    rw [simple_vectorize_length, splitWS_bigText1024,
      List.dedup_eq_self.2 tokens1024_nodup, tokens1024_length]
    decide
  have h2 : (vectorize_ref bigText1024).length = 1024 := by
    rw [vectorize_ref_length, splitWS_bigText1024,
      List.dedup_eq_self.2 tokens1024_nodup, tokens1024_length]
  rw [h, h2] at h1
  exact absurd h1 (by decide)

/-- C5 (amended): `_simple_vectorize` computes the reference algorithm
with the vocabulary truncated to the first 1000 sorted distinct tokens; it
coincides with the reference definition exactly on texts with at most 1000
distinct tokens (texts with more get a truncated vocabulary — see the
counterexample). -/
theorem vectorize_eq_ref_small_vocab (t : List Char)
    (h : (splitWS (t.map pyLower)).dedup.length ≤ 1000) :
    simple_vectorize t = vectorize_ref t := by
  have htake : (List.insertionSort strLe (splitWS (t.map pyLower)).dedup).take 1000 =
      List.insertionSort strLe (splitWS (t.map pyLower)).dedup :=
    List.take_of_length_le (by rw [List.length_insertionSort]; exact h)
  simp only [simple_vectorize, vectorize_ref]
  rw [htake]

/-- Witness for C5's amended theorem on a small concrete text. -/
theorem vectorize_eq_ref_small_vocab_witness :
    (splitWS (("hello world".toList).map pyLower)).dedup.length ≤ 1000 ∧
    simple_vectorize ("hello world".toList) = vectorize_ref ("hello world".toList) :=
  ⟨by decide, vectorize_eq_ref_small_vocab ("hello world".toList) (by decide)⟩

/-- C8: for every reachable index state, `save()` followed by `load()`
into a fresh `SimpleVectorStore` instance yields an index whose
`search(query, k)` output (with or without a document filter) is identical
to the original's for every query and every `k`. -/
theorem save_load_roundtrip_search (st : Store) (q : List Char) (k : Int)
    (d : Option Int) :
    search (loadStore (saveStore st)) q k d = search st q k d := by
  cases st
  rfl

/-- C9: `generate_response` never propagates an exception to the chat
flow: a backend exception (connection failure, timeout) yields the
descriptive `Error generating response: ...` message, a non-success HTTP
status yields `Error: Ollama returned status code ...`, and a 200 reply
whose JSON omits the `response` field yields the fixed fallback string. -/
theorem generate_response_never_raises (m : List Char) (code : Nat)
    (j : Option (List Char)) (s : List Char) :
    generate_response (.exc m) = excMsgPrefixStr ++ m ∧
    (code ≠ 200 →
      generate_response (.reply code j) = statusMsgPrefixStr ++ Nat.toDigits 10 code) ∧
    generate_response (.reply 200 (some s)) = s ∧
    generate_response (.reply 200 none) = fallbackMsgStr := by
  refine ⟨rfl, fun h => ?_, rfl, rfl⟩
  simp [generate_response, h]

/-- Witness for C9 at a concrete failing HTTP status. -/
theorem generate_response_never_raises_witness :
    (500 : Nat) ≠ 200 ∧
    generate_response (.reply 500 none) = statusMsgPrefixStr ++ Nat.toDigits 10 500 :=
  ⟨by decide, (generate_response_never_raises [] 500 none []).2.1 (by decide)⟩

/-- C4 (code bug): the upload flow creates the record in status
`'processing'` and marks it `'ready'` on success, but on an indexing
failure the record keeps status `'processing'` — `update_document_status
(doc_id, 'error')` is called nowhere in the repository — and on an
extraction failure no record exists at all, so no transition to `'error'`
ever happens. -/
theorem upload_document_never_marks_error :
    upload_document true false [] 1 =
      ([(1, processingStatus)], .httpError indexingErrMsg) ∧
    upload_document false true [] 1 = ([], .httpError extractionErrMsg) ∧
    upload_document true true [] 1 = ([(1, readyStatus)], .success 1) ∧
    processingStatus ≠ errorStatus :=
  ⟨rfl, rfl, rfl, by decide⟩

/-- C1 (code bug): `chunk_text` performs no parameter validation and no
`ConfigError` (or any exception) exists in `pdf_processor.py`; with
`overlap = chunk_size` (step `0`) on any non-empty text the loop never
reaches its exit condition — no amount of fuel makes it terminate —
instead of being rejected up front as the spec requires. -/
theorem chunk_text_invalid_params_never_terminate :
    (∀ fuel cid : Nat, chunkLoop 512 512 ('a' :: []) fuel 0 cid = none) ∧
    chunk_text 512 512 ('a' :: []) = none := by
  have h : ∀ fuel cid : Nat, chunkLoop 512 512 ('a' :: []) fuel 0 cid = none := by
    intro fuel
    induction fuel with
    | zero => intro cid; rfl
    | succ n ih =>
      intro cid
      have e1 : (0 : Int) + (512 - 512) = 0 := by norm_num
      simp [chunkLoop, e1, ih]
  exact ⟨h, h 2 0⟩

/-- C3 (counterexample): an `add_document` call for document 1 carrying
chunks with ids 0 and 1 that fails on the second chunk leaves the store
with document 1 present but carrying only chunk 0 — a partial insert,
because the per-chunk append loop has no rollback. -/
theorem add_document_partial_insert_counterexample :
    (add_document emptyStore 1 (chunkDict0 :: chunkDictBad1 :: []) none).2 = false ∧
    (add_document emptyStore 1 (chunkDict0 :: chunkDictBad1 :: []) none).1.metadata.map
        (fun m => (m.doc_id, m.chunk_id)) ≠
      (chunkDict0 :: chunkDictBad1 :: []).map (fun c => ((1 : Int), c.id.getD 0)) ∧
    (add_document emptyStore 1 (chunkDict0 :: chunkDictBad1 :: []) none).1.metadata.map
        (fun m => (m.doc_id, m.chunk_id)) = ((1 : Int), (0 : Nat)) :: [] := by
  refine ⟨rfl, ?_, rfl⟩
  intro h
  simp [add_document, add_document_loop, emptyStore, chunkDict0, chunkDictBad1] at h

/-- C3 (amended): the no-partial/no-duplicate invariant holds exactly for
the `add_document` calls that complete without an exception: a successful
call appends to the index one metadata entry per chunk, in order, carrying
that document id and that chunk's id — while a call that fails partway
leaves a partial insert behind (see the counterexample). -/
theorem add_document_success_exact_chunks (d : Int) (f : List Char) (st : Store)
    (cs : List PyChunkDict) (hok : (add_document_loop d f st cs).2 = true) :
    (add_document_loop d f st cs).1.metadata =
      st.metadata ++ cs.map (expectedMeta d f) := by
  induction cs generalizing st with
  | nil => simp [add_document_loop]
  | cons c cs ih =>
    match hc : c.text with
    | none => simp [add_document_loop, hc] at hok
    | some t =>
      match hid : c.id, hs : c.start_char, he : c.end_char with
      | some cid, some s, some e =>
        rw [add_document_loop] at hok ⊢
        rw [hc] at hok ⊢
        rw [hid, hs, he] at hok ⊢
        rw [ih _ hok]
        simp [expectedMeta, hid, hs, he, hc]
      | none, _, _ =>
        rw [add_document_loop] at hok
        rw [hc, hid] at hok
        simp at hok
      | some _, none, _ =>
        rw [add_document_loop] at hok
        rw [hc, hid, hs] at hok
        simp at hok
      | some _, some _, none =>
        rw [add_document_loop] at hok
        rw [hc, hid, hs, he] at hok
        simp at hok

/-- Witness for C3's amended theorem: a successful call with one chunk. -/
theorem add_document_success_exact_chunks_witness :
    (add_document_loop 1 [] emptyStore (chunkDict0 :: [])).2 = true ∧
    (add_document_loop 1 [] emptyStore (chunkDict0 :: [])).1.metadata =
      emptyStore.metadata ++ (chunkDict0 :: []).map (expectedMeta 1 []) :=
  ⟨rfl, add_document_success_exact_chunks 1 [] emptyStore (chunkDict0 :: []) rfl⟩

/-- C10: on a non-empty index, `search` accepts a non-positive `top_k`
without error: `top_k = 0` returns the empty list, and a negative `top_k`
returns all ranked candidates except the final `|top_k|` of them, exactly
Python's `similarities[:top_k]` slice semantics. -/
theorem search_nonpositive_top_k (st : Store) (q : List Char) (d : Option Int)
    (k : Int) (hk : k < 0) (hne : st.documents ≠ []) :
    search st q 0 d = [] ∧
    search st q k d =
      ((searchRanked st q d).take
        ((searchRanked st q d).length - (-k).toNat)).map (searchHit st) := by
  constructor
  · rw [search]
    rw [if_neg hne]
    simp [pyTakeInt]
  · rw [search]
    rw [if_neg hne]
    have hk' : ¬ (0 ≤ k) := by omega
    have harith : (((searchRanked st q d).length : Int) + k).toNat =
        (searchRanked st q d).length - (-k).toNat := by omega
    rw [pyTakeInt, if_neg hk', harith]
    rfl

/-- Witness for C10 at a concrete non-empty store and `top_k = -1`. -/
theorem search_nonpositive_top_k_witness :
    (-1 : Int) < 0 ∧ oneEntryStore.documents ≠ [] ∧
    (search oneEntryStore ('a' :: []) 0 none = [] ∧
      search oneEntryStore ('a' :: []) (-1) none =
        ((searchRanked oneEntryStore ('a' :: []) none).take
          ((searchRanked oneEntryStore ('a' :: []) none).length - ((1 : Int)).toNat)).map
          (searchHit oneEntryStore)) :=
  ⟨by decide, by simp [oneEntryStore],
    search_nonpositive_top_k oneEntryStore ('a' :: []) none (-1) (by decide)
      (by simp [oneEntryStore])⟩

/-- Vectorizing the one-token query `"a"`. -/
theorem vectorize_single_a : simple_vectorize ('a' :: []) = (1 : ℝ) :: [] := by
  simp [simple_vectorize, splitWS, splitWSAux, pyLower, isSpace, pyNorm,
    List.insertionSort, List.orderedInsert, List.dedup, List.count, Real.sqrt_one]

theorem cosine_one_one : cosine_similarity ((1 : ℝ) :: []) ((1 : ℝ) :: []) = 1 := by
  simp [cosine_similarity, Real.sqrt_one]

theorem cosine_one_nil : cosine_similarity ((1 : ℝ) :: []) ([] : List ℝ) = 0 := by
  simp [cosine_similarity]

/-- Candidates of document 1 in the starvation store all have similarity 1. -/
theorem starve_ranked_doc1 : searchRanked starveStore ('a' :: []) (some 1) =
    (0, (1 : ℝ)) :: (1, (1 : ℝ)) :: (2, (1 : ℝ)) :: [] := by
  simp [searchRanked, starveStore, vectorize_single_a, cosine_one_one, cosine_one_nil,
    matchesFilter, List.insertionSort, List.orderedInsert, List.enum, List.enumFrom,
    List.filter]

/-- Candidates of document 2 in the starvation store all have similarity 0. -/
theorem starve_ranked_doc2 : searchRanked starveStore ('a' :: []) (some 2) =
    (3, (0 : ℝ)) :: (4, (0 : ℝ)) :: [] := by
  simp [searchRanked, starveStore, vectorize_single_a, cosine_one_one, cosine_one_nil,
    matchesFilter, List.insertionSort, List.orderedInsert, List.enum, List.enumFrom,
    List.filter]

theorem starve_search_doc1 : search starveStore ('a' :: []) 3 (some 1) =
    (⟨'a' :: [], ⟨1, 0, [], 0, 1⟩, 0⟩ : SearchResult) ::
    (⟨'a' :: [], ⟨1, 1, [], 0, 1⟩, 0⟩ : SearchResult) ::
    (⟨'a' :: [], ⟨1, 2, [], 0, 1⟩, 0⟩ : SearchResult) :: [] := by
  rw [search, if_neg (by simp [starveStore]), starve_ranked_doc1]
  simp [pyTakeInt, starveStore]
  all_goals decide

theorem starve_search_doc2 : search starveStore ('a' :: []) 3 (some 2) =
    (⟨[], ⟨2, 0, [], 0, 0⟩, 1⟩ : SearchResult) ::
    (⟨[], ⟨2, 1, [], 0, 0⟩, 1⟩ : SearchResult) :: [] := by
  rw [search, if_neg (by simp [starveStore]), starve_ranked_doc2]
  simp [pyTakeInt, starveStore]

/-- C6: multi-document retrieval (`retrieve_context_from_docs`) equals
the spec's reference merge policy — one `search(query, top_k, doc_id)` per
selected document, concatenation, stable sort of the combined pool by
distance ascending, truncation to the global `top_k` — and consequently a
selected document can contribute zero chunks: in the concrete starvation
scenario, documents 1 and 2 are both selected with `top_k = 3` and
document 2 has two indexed chunks, yet all three merged results come from
document 1. -/
theorem retrieve_from_docs_eq_reference_merge (st : Store) (q : List Char)
    (ids : List Int) (k : Int) (_h : ids ≠ []) :
    retrieve_context_from_docs st q ids k = referenceMultiDocRetrieve st q ids k ∧
    (retrieve_context_from_docs starveStore ('a' :: []) ((1 : Int) :: 2 :: []) 3).map
      (fun r => r.metadata.doc_id) = (1 : Int) :: 1 :: 1 :: [] ∧
    (starveStore.metadata.filter fun m => m.doc_id = 2).length = 2 := by
  refine ⟨rfl, ?_, by decide⟩
  rw [retrieve_context_from_docs]
  simp only [List.flatMap_cons, List.flatMap_nil, starve_search_doc1, starve_search_doc2]
  simp [List.insertionSort, List.orderedInsert, pyTakeInt]

/-- Witness for C6 on a concrete non-empty selection. -/
theorem retrieve_from_docs_eq_reference_merge_witness :
    ((1 : Int) :: []) ≠ [] ∧
    (retrieve_context_from_docs emptyStore ('a' :: []) ((1 : Int) :: []) 3 =
        referenceMultiDocRetrieve emptyStore ('a' :: []) ((1 : Int) :: []) 3 ∧
      (retrieve_context_from_docs starveStore ('a' :: []) ((1 : Int) :: 2 :: []) 3).map
        (fun r => r.metadata.doc_id) = (1 : Int) :: 1 :: 1 :: [] ∧
      (starveStore.metadata.filter fun m => m.doc_id = 2).length = 2) :=
  ⟨by decide,
    retrieve_from_docs_eq_reference_merge emptyStore ('a' :: []) ((1 : Int) :: []) 3
      (by decide)⟩

end OfflineChat
